import Mathlib

/-!
Shallow embedding of `src/prop.py` (class `MagicBricksScraper`), the single
source file of the repository `Rohit0133/magicbirds`.

The program is a sequential web scraper.  Its pure logic (string
normalisation, CSV row/header layout, batch/write-mode selection, sentinel
classification) is translated directly into Lean; the effectful parts
(HTTP requests, HTML selector matching, the filesystem) are abstracted as
explicit parameters: a fetch oracle `String → String` for detail-page
results, an outcome value for each network request, a pre-state for the
CSV file, and an event trace for the run controller's file operations.

Python specifics preserved by the model:
* `str.split(sep)` with a one-character separator never merges separators
  and maps `""` to `[""]` (`splitOnChar`);
* `str.strip()` trims whitespace from both ends (`pyStripL`, ASCII
  whitespace);
* `sorted` on strings is lexicographic by code point (`strLe`);
* truthiness tests `if s:` on strings/lists are emptiness tests.
-/

/-- Python's `str.split(sep)` for a one-character separator, on the
character list: every occurrence of `sep` starts a new segment, and the
empty list splits to `[[]]` (Python: `"".split(sep) == [""]`). -/
def splitOnChar (sep : Char) : List Char → List (List Char)
  | [] => [[]]
  | c :: cs =>
    let rest := splitOnChar sep cs
    if c = sep then
      [] :: rest
    else
      match rest with
      | [] => [[c]]
      | seg :: segs => (c :: seg) :: segs

/-- ASCII whitespace as stripped by Python's `str.strip()`
(space, tab, newline, carriage return, vertical tab, form feed). -/
def pyIsSpace (c : Char) : Bool :=
  c = ' ' || c = '\t' || c = '\n' || c = '\r' || c.toNat = 11 || c.toNat = 12

/-- Python's `str.strip()` on a character list: drop whitespace from both
ends. -/
def pyStripL (l : List Char) : List Char :=
  ((l.dropWhile pyIsSpace).reverse.dropWhile pyIsSpace).reverse

/-- Code-point comparison of characters, as Python compares strings. -/
def charNat (c : Char) : Nat := c.toNat

/-- Lexicographic (code-point) `≤` on character lists: Python's string
comparison used by `sorted`. -/
def strLe : List Char → List Char → Bool
  | [], _ => true
  | _ :: _, [] => false
  | a :: as, b :: bs =>
    if charNat a < charNat b then true
    else if charNat b < charNat a then false
    else strLe as bs

/-- The propositional form of `strLe`, used as the sorting relation. -/
def LabelLe (a b : List Char) : Prop := strLe a b = true

instance : DecidableRel LabelLe := fun a b => instDecidableEqBool (strLe a b) true

theorem strLe_total (a b : List Char) : strLe a b = true ∨ strLe b a = true := by
  induction a generalizing b with
  | nil => exact Or.inl rfl
  | cons x xs ih =>
    cases b with
    | nil => exact Or.inr rfl
    | cons y ys =>
      by_cases hxy : charNat x < charNat y
      · left; simp [strLe, hxy]
      · by_cases hyx : charNat y < charNat x
        · right; simp [strLe, hyx]
        · rcases ih ys with h | h
          · left; simp [strLe, hxy, hyx, h]
          · right; simp [strLe, hxy, hyx, h]

theorem strLe_trans (a b c : List Char) (hab : strLe a b = true)
    (hbc : strLe b c = true) : strLe a c = true := by
  induction a generalizing b c with
  | nil => rfl
  | cons x xs ih =>
    cases b with
    | nil => simp [strLe] at hab
    | cons y ys =>
      cases c with
      | nil => simp [strLe] at hbc
      | cons z zs =>
        simp only [strLe] at hab hbc ⊢
        by_cases hxy : charNat x < charNat y
        · by_cases hyz : charNat y < charNat z
          · simp [show charNat x < charNat z from Nat.lt_trans hxy hyz]
          · by_cases hzy : charNat z < charNat y
            · simp [hyz, hzy] at hbc
            · have hyz' : charNat y = charNat z := Nat.le_antisymm
                (Nat.le_of_not_lt hzy) (Nat.le_of_not_lt hyz)
              simp [show charNat x < charNat z from hyz' ▸ hxy]
        · by_cases hyx : charNat y < charNat x
          · simp [hxy, hyx] at hab
          · have hxy' : charNat x = charNat y := Nat.le_antisymm
              (Nat.le_of_not_lt hyx) (Nat.le_of_not_lt hxy)
            by_cases hyz : charNat y < charNat z
            · simp [show charNat x < charNat z from hxy' ▸ hyz]
            · by_cases hzy : charNat z < charNat y
              · simp [hyz, hzy] at hbc
              · have hxz : ¬ charNat x < charNat z := by
                  omega
              -- x = y and neither y < z nor z < y, so segments tie
                have hzx : ¬ charNat z < charNat x := by omega
                simp only [hxy, hyx, if_neg, ite_false] at hab
                simp only [hyz, hzy, if_neg, ite_false] at hbc
                simp [hxz, hzx, ih ys zs hab hbc]

instance : IsTotal (List Char) LabelLe := ⟨strLe_total⟩

instance : IsTrans (List Char) LabelLe := ⟨fun a b c => strLe_trans a b c⟩

/-- Python's `sorted(set(l))` for a list of labels: distinct elements in
lexicographic order. -/
def sortedSet (l : List (List Char)) : List (List Char) :=
  List.insertionSort LabelLe l.dedup

/-- `", ".join(labels)` on character lists. -/
def joinLabels : List (List Char) → List Char
  | [] => []
  | [x] => x
  | x :: y :: xs => x ++ (',' :: ' ' :: joinLabels (y :: xs))

/-- The accumulation loop of `getfloorPlan` (src/prop.py lines 101-106):
for each pipe-separated unit entry that is non-empty and contains a comma,
strip the text before the first comma and, when that is non-empty, add it
to the collection. -/
def collectPlans : List (List Char) → List (List Char) → List (List Char)
  | [], acc => acc
  | u :: us, acc =>
    if u ≠ [] ∧ u.contains ',' then
      if pyStripL (u.takeWhile (fun c => c ≠ ',')) ≠ [] then
        collectPlans us (acc ++ [pyStripL (u.takeWhile (fun c => c ≠ ','))])
      else collectPlans us acc
    else collectPlans us acc

/-- `MagicBricksScraper.getfloorPlan` (src/prop.py lines 93-110): dedupe
the plan labels, sort them, join with `", "`.  The Python body is wrapped
in a catch-all `except` returning `""`, but every operation it performs is
total; the Lean embedding is a total function, so the operation never
raises. -/
def getfloorPlan (unit_info : String) : String :=
  if unit_info = "" then ""
  else
    String.mk (joinLabels (sortedSet (collectPlans (splitOnChar '|' unit_info.data) [])))

/-- The plan labels as described by the claim's words: the
whitespace-trimmed first comma-segment of every well-formed
(comma-containing) entry; entries without a comma are ignored. -/
def planLabelsClaim (s : String) : List (List Char) :=
  (splitOnChar '|' s.data).filterMap (fun u =>
    if u.contains ',' then some (pyStripL (u.takeWhile (fun c => c ≠ ','))) else none)

/-- `normalizeFloorPlans` as the claim literally states it: the sorted,
duplicate-free trimmed first comma-segments of the comma-containing
entries, joined by `", "`; empty input yields `""`. -/
def normalizeFloorPlansClaim (s : String) : String :=
  if s = "" then ""
  else String.mk (joinLabels (sortedSet (planLabelsClaim s)))

/-- The label an entry contributes under the amended reading: its trimmed
first comma-segment, provided the entry contains a comma and that trimmed
segment is non-empty. -/
def amendedLabel (u : List Char) : Option (List Char) :=
  if u.contains ',' then
    if pyStripL (u.takeWhile (fun c => c ≠ ',')) ≠ [] then
      some (pyStripL (u.takeWhile (fun c => c ≠ ',')))
    else none
  else none

/-- The plan labels after the amendment: additionally ignore entries whose
trimmed first comma-segment is empty. -/
def planLabelsAmended (s : String) : List (List Char) :=
  (splitOnChar '|' s.data).filterMap amendedLabel

/-- `normalizeFloorPlans` as amended: entries whose trimmed first
comma-segment is empty are also ignored. -/
def normalizeFloorPlansAmended (s : String) : String :=
  if s = "" then ""
  else String.mk (joinLabels (sortedSet (planLabelsAmended s)))

theorem collectPlans_eq (us : List (List Char)) (acc : List (List Char)) :
    collectPlans us acc = acc ++ us.filterMap amendedLabel := by
  induction us generalizing acc with
  | nil => simp [collectPlans]
  | cons u rest ih =>
    rw [collectPlans, List.filterMap_cons]
    by_cases hc : u.contains ',' = true
    · have hne : u ≠ [] := by
        rintro rfl
        exact absurd hc (by decide)
      by_cases hv : pyStripL (u.takeWhile (fun c => c ≠ ',')) ≠ []
      · have hl : amendedLabel u = some (pyStripL (u.takeWhile (fun c => c ≠ ','))) := by
          unfold amendedLabel
          rw [if_pos hc, if_pos hv]
        rw [if_pos ⟨hne, hc⟩, if_pos hv, hl, ih]
        simp
      · have hl : amendedLabel u = none := by
          unfold amendedLabel
          rw [if_pos hc, if_neg hv]
        rw [if_pos ⟨hne, hc⟩, if_neg hv, hl, ih]
    · have hl : amendedLabel u = none := by
        unfold amendedLabel
        rw [if_neg hc]
      have hng : ¬ (u ≠ [] ∧ u.contains ',') := fun h => hc h.2
      rw [if_neg hng, hl, ih]

theorem getfloorPlan_eq_amended (s : String) :
    getfloorPlan s = normalizeFloorPlansAmended s := by
  unfold getfloorPlan normalizeFloorPlansAmended planLabelsAmended
  by_cases h : s = "" <;> simp [h, collectPlans_eq]

example : getfloorPlan "2BHK,900sqft|3BHK,1200sqft|2BHK,950sqft" = "2BHK, 3BHK" := by decide

example : getfloorPlan ",a|b,c" = "b" := by decide

example : normalizeFloorPlansClaim ",a|b,c" = ", b" := by decide

/-! ## Detail Fetcher: `getRera` (src/prop.py lines 37-91)

The network request and HTML parsing are abstracted as a `ReraFetch`
outcome: the three exception classes the Python code catches, or a
successful fetch.  A successful fetch carries the text each of the five
CSS selector strategies would yield (`none` when the selector matches no
element, `some t` when it matches an element with stripped text `t`) and
the text the free-text "rera" fallback scan would yield (`""` when the
scan finds nothing; the Python loop only assigns a parent text that
contains "rera", hence non-empty, but the model does not need that). -/

/-- Outcome of the detail-page request in `getRera`:
`timeout` = `requests.exceptions.Timeout`,
`requestError` = any other `requests.exceptions.RequestException`
(including a non-2xx status raised by `raise_for_status`),
`otherError` = any other exception,
`ok` = page fetched and parsed. -/
inductive ReraFetch where
  | timeout
  | requestError
  | otherError
  | ok (selectorTexts : List (Option String)) (fallbackText : String)
deriving DecidableEq

/-- The selector loop of `getRera` (src/prop.py lines 63-69): `rera_text`
ends as the first non-empty text among the selectors that matched an
element, and `""` otherwise (a matched element with empty text is
overwritten or left as `""`). -/
def firstSelectorText : List (Option String) → String
  | [] => ""
  | none :: rest => firstSelectorText rest
  | some t :: rest => if t ≠ "" then t else firstSelectorText rest

/-- `MagicBricksScraper.getRera` (src/prop.py lines 37-91), with the
number of HTTP requests issued as the second component.  An empty
`pdp_url` returns `""` before any request; otherwise exactly one request
is issued and every failure is converted to a sentinel string, so the
operation never propagates an exception. -/
def getRera (pdp_url : String) (net : ReraFetch) : String × Nat :=
  if pdp_url = "" then ("", 0)
  else
    match net with
    | ReraFetch.timeout => ("Timeout", 1)
    | ReraFetch.requestError => ("Network Error", 1)
    | ReraFetch.otherError => ("Error", 1)
    | ReraFetch.ok sel fb =>
      let t := firstSelectorText sel
      let t2 := if t = "" then fb else t
      (if t2 ≠ "" then t2 else "Not Available", 1)

/-! ## Page Harvester: `scrape_single_page` (src/prop.py lines 170-240) -/

/-- The success/failure counters `rera_stats` (and their run-wide
aggregate `total_rera_stats`). -/
structure Stats where
  success : Nat
  failed : Nat
deriving DecidableEq

/-- One raw project card from the listing API response.  The Python code
reads every field with `project.get(key, '')`, so an absent field is
indistinguishable from `''` and is modelled as `""`. -/
structure RawProject where
  psmName : String
  lmtDName : String
  showPriceRange : String
  totalUnits : String
  sblink : String
  projArea : String
  unitInfo : String
  pdpUrl : String
deriving DecidableEq

/-- One output record (`project_data` in src/prop.py lines 189-198). -/
structure ListingRecord where
  name : String
  developerName : String
  priceRange : String
  noOfUnits : String
  brochure : String
  totalAcres : String
  floorPlan : String
  reraNumber : String
deriving DecidableEq

/-- The `project_data` dict as first built (src/prop.py lines 189-198),
before the RERA lookup fills the last field. -/
def buildRecord (p : RawProject) : ListingRecord :=
  ⟨p.psmName, p.lmtDName, p.showPriceRange, p.totalUnits, p.sblink, p.projArea,
    getfloorPlan p.unitInfo, ""⟩

/-- The four sentinel failure strings of the RERA classification
(src/prop.py line 207). -/
def reraSentinels : List String := ["Not Available", "Timeout", "Network Error", "Error"]

/-- The classification predicate of src/prop.py line 207:
`rera_number and rera_number not in [...]`. -/
def reraSuccess (r : String) : Bool := !(r == "") && !(reraSentinels.contains r)

/-- The per-record body of `scrape_single_page` (src/prop.py lines
187-221), with the detail fetch abstracted as `fetch : String → String`:
build the record; if it has a non-empty `pdpUrl`, store the fetch result
and count success or failure by `reraSuccess`; otherwise store
`"No PDP URL"` and count a failure.  Returns the finished record and the
increment to `rera_stats`. -/
def processProject (fetch : String → String) (p : RawProject) : ListingRecord × Stats :=
  let base := buildRecord p
  if p.pdpUrl ≠ "" then
    if reraSuccess (fetch p.pdpUrl) then
      (⟨base.name, base.developerName, base.priceRange, base.noOfUnits, base.brochure,
        base.totalAcres, base.floorPlan, fetch p.pdpUrl⟩, ⟨1, 0⟩)
    else
      (⟨base.name, base.developerName, base.priceRange, base.noOfUnits, base.brochure,
        base.totalAcres, base.floorPlan, fetch p.pdpUrl⟩, ⟨0, 1⟩)
  else
    (⟨base.name, base.developerName, base.priceRange, base.noOfUnits, base.brochure,
      base.totalAcres, base.floorPlan, "No PDP URL"⟩, ⟨0, 1⟩)

/-- Outcome of the listing-API request in `scrape_single_page`:
`requestError` = `requests.exceptions.RequestException`,
`jsonError` = `json.JSONDecodeError`,
`otherError` = any other exception,
`ok cards` = a JSON body, where `cards = none` models a body without the
`projectsCards` key and `cards = some l` a body whose `projectsCards`
value is the list `l`. -/
inductive PageFetch where
  | requestError
  | jsonError
  | otherError
  | ok (cards : Option (List RawProject))
deriving DecidableEq

/-- Sum a list of per-record counter increments. -/
def sumStats (l : List Stats) : Stats :=
  l.foldl (fun a b => ⟨a.success + b.success, a.failed + b.failed⟩) ⟨0, 0⟩

/-- `MagicBricksScraper.scrape_single_page` (src/prop.py lines 170-240):
on any request-level failure, or when the body lacks a non-empty
`projectsCards` list, return `([], {success: 0, failed: 0})`; otherwise
map every card through the per-record body and accumulate the counters. -/
def scrape_single_page (fetch : String → String) (net : PageFetch) :
    List ListingRecord × Stats :=
  match net with
  | PageFetch.requestError => ([], ⟨0, 0⟩)
  | PageFetch.jsonError => ([], ⟨0, 0⟩)
  | PageFetch.otherError => ([], ⟨0, 0⟩)
  | PageFetch.ok cards =>
    match cards with
    | none => ([], ⟨0, 0⟩)
    | some l =>
      if l = [] then ([], ⟨0, 0⟩)
      else
        (l.map (fun p => (processProject fetch p).1),
         sumStats (l.map (fun p => (processProject fetch p).2)))

/-! ## Persistence Sink: `write_to_csv` (src/prop.py lines 112-136)

The CSV file is modelled as a list of rows, each row a list of cell
strings.  `write_to_csv` takes the file's pre-state and returns
`(returned boolean, file post-state, whether the file was opened)`.
Opening in `'w'` truncates; opening in `'a'` keeps the existing rows and
`csvfile.tell() == 0` holds exactly when the existing content is empty.
Only the non-failing I/O path is modelled (the `except` branch that
returns `False` on an I/O error is outside the pure model). -/

/-- The file-open mode: `Mode.w` = `'w'`, `Mode.a` = `'a'`. -/
inductive Mode where
  | w
  | a
deriving DecidableEq

/-- The fixed `fieldnames` header (src/prop.py lines 119-120). -/
def fieldnames : List String :=
  ["Name", "Developer Name", "Price Range", "No of units",
   "Brochure", "Total Acres", "Floor Plan", "RERA Number"]

/-- The row `csv.DictWriter.writerow` emits for a record: the record's
values in `fieldnames` order. -/
def recordRow (r : ListingRecord) : List String :=
  [r.name, r.developerName, r.priceRange, r.noOfUnits, r.brochure,
   r.totalAcres, r.floorPlan, r.reraNumber]

/-- The value a `ListingRecord` holds for a named CSV field (the dict
lookup `project[fieldname]` performed by `DictWriter`). -/
def fieldValue (r : ListingRecord) (field : String) : String :=
  if field = "Name" then r.name
  else if field = "Developer Name" then r.developerName
  else if field = "Price Range" then r.priceRange
  else if field = "No of units" then r.noOfUnits
  else if field = "Brochure" then r.brochure
  else if field = "Total Acres" then r.totalAcres
  else if field = "Floor Plan" then r.floorPlan
  else if field = "RERA Number" then r.reraNumber
  else ""

/-- `MagicBricksScraper.write_to_csv` (src/prop.py lines 112-136): an
empty batch returns `False` without touching the file; otherwise the file
is opened in the requested mode, a header row is written when the mode is
`'w'` or the file position is `0`, and one row per record follows. -/
def write_to_csv (projects : List ListingRecord) (mode : Mode)
    (existing : List (List String)) : Bool × List (List String) × Bool :=
  if projects = [] then (false, existing, false)
  else
    match mode with
    | Mode.w => (true, [fieldnames] ++ projects.map recordRow, true)
    | Mode.a =>
      if existing = [] then (true, [fieldnames] ++ projects.map recordRow, true)
      else (true, existing ++ projects.map recordRow, true)

/-! ## Run Controller: `scrape_multiple_pages` (src/prop.py lines 242-310)

The controller's file operations are recorded as an event trace.  Each
page's harvest result is abstracted as `pageResults : Nat → List
ListingRecord × Stats` (the return value of `scrape_single_page` for that
page index); the pre-existence of the CSV file and the backup timestamp
`int(time.time())` are explicit parameters.  The normal control path is
modelled (no `KeyboardInterrupt` and no per-page exception; both only cut
the loop short and fall through to the same finalization). -/

/-- `self.csv_filename` for the default `output` directory
(src/prop.py line 19). -/
def csv_filename : String := "output/magicbricks_projects.csv"

/-- The backup name `f"backup_{int(time.time())}_{self.csv_filename}"`
(src/prop.py line 257). -/
def backupName (timestamp : Nat) : String :=
  "backup_" ++ toString timestamp ++ "_" ++ csv_filename

/-- A file operation performed by the run controller.  `csvWrite` records
the page being processed (`none` for the finalization flush), the mode
passed to the Persistence Sink, the flushed batch, and the length of
`all_projects` at the moment of the flush. -/
inductive Event where
  | rename (oldName newName : String)
  | csvWrite (page : Option Nat) (mode : Mode) (batch : List ListingRecord)
      (corpusLen : Nat)
  | jsonWrite (corpus : List ListingRecord)
deriving DecidableEq

/-- The loop state of `scrape_multiple_pages`: `all_projects`,
`current_batch`, `total_rera_stats`, and the file operations performed so
far inside the loop. -/
structure LoopState where
  allProjects : List ListingRecord
  currentBatch : List ListingRecord
  totalStats : Stats
  events : List Event
deriving DecidableEq

/-- The body of the page loop (src/prop.py lines 261-286): harvest the
page, add its counters, and if it returned records, extend the corpus and
the batch and flush the batch when it has reached `batch_size`, choosing
`'w'` exactly when `page_no == start_page and len(all_projects) <=
batch_size` (src/prop.py line 276). -/
def stepPage (startPage batchSize : Nat) (pageResults : Nat → List ListingRecord × Stats)
    (st : LoopState) (pageNo : Nat) : LoopState :=
  let pp := (pageResults pageNo).1
  let ps := (pageResults pageNo).2
  let stats2 : Stats := ⟨st.totalStats.success + ps.success, st.totalStats.failed + ps.failed⟩
  if pp = [] then ⟨st.allProjects, st.currentBatch, stats2, st.events⟩
  else
    let all2 := st.allProjects ++ pp
    let batch2 := st.currentBatch ++ pp
    if batchSize ≤ batch2.length then
      let mode := if pageNo = startPage ∧ all2.length ≤ batchSize then Mode.w else Mode.a
      ⟨all2, [], stats2, st.events ++ [Event.csvWrite (some pageNo) mode batch2 all2.length]⟩
    else ⟨all2, batch2, stats2, st.events⟩

/-- `range(start_page, end_page + 1)`. -/
def pageRange (startPage endPage : Nat) : List Nat :=
  List.range' startPage (endPage + 1 - startPage)

/-- The page loop of `scrape_multiple_pages`, from the empty initial
state. -/
def runLoop (startPage endPage batchSize : Nat)
    (pageResults : Nat → List ListingRecord × Stats) : LoopState :=
  (pageRange startPage endPage).foldl (stepPage startPage batchSize pageResults)
    ⟨[], [], ⟨0, 0⟩, []⟩

/-- `MagicBricksScraper.scrape_multiple_pages` (src/prop.py lines
242-310): back up a pre-existing CSV when starting from page 1, run the
page loop, flush any remaining batch with `'w'` exactly when
`all_projects` is empty (src/prop.py line 298), and write the JSON
snapshot.  Returns `(all_projects, total_rera_stats, event trace)`. -/
def scrape_multiple_pages (startPage endPage batchSize : Nat)
    (pageResults : Nat → List ListingRecord × Stats) (csvExists : Bool)
    (timestamp : Nat) : List ListingRecord × Stats × List Event :=
  let initEvents :=
    if startPage = 1 ∧ csvExists = true then
      [Event.rename csv_filename (backupName timestamp)]
    else []
  let st := runLoop startPage endPage batchSize pageResults
  let finalEvents :=
    if st.currentBatch = [] then []
    else
      [Event.csvWrite none (if st.allProjects = [] then Mode.w else Mode.a)
        st.currentBatch st.allProjects.length]
  (st.allProjects, st.totalStats,
    initEvents ++ st.events ++ finalEvents ++ [Event.jsonWrite st.allProjects])

/-- The mode of the first Persistence Sink call in a trace, if any. -/
def firstCsvMode : List Event → Option Mode
  | [] => none
  | Event.csvWrite _ m _ _ :: _ => some m
  | Event.rename _ _ :: es => firstCsvMode es
  | Event.jsonWrite _ :: es => firstCsvMode es

/-- What src/prop.py lines 276 and 298 actually guarantee for one sink
call: the mode is `'w'` exactly when the call happens while processing
the start page with `len(all_projects) <= batch_size` at the flush. -/
def ModeOk (startPage batchSize : Nat) : Event → Prop
  | Event.csvWrite page mode _ corpusLen =>
      mode = Mode.w ↔ (page = some startPage ∧ corpusLen ≤ batchSize)
  | _ => True

/-! ## Helper lemmas -/

theorem reraSuccess_iff (r : String) :
    reraSuccess r = true ↔ (r ≠ "" ∧ r ∉ reraSentinels) := by
  simp [reraSuccess, List.contains]

theorem firstSelectorText_eq_empty (sel : List (Option String))
    (h : ∀ o ∈ sel, ∀ t, o = some t → t = "") : firstSelectorText sel = "" := by
  induction sel with
  | nil => rfl
  | cons o rest ih =>
    cases o with
    | none =>
      exact ih (fun o ho t ht => h o (List.mem_cons_of_mem _ ho) t ht)
    | some t =>
      have ht : t = "" := h (some t) (List.mem_cons_self _ _) t rfl
      subst ht
      simp only [firstSelectorText, ne_eq, not_true_eq_false, if_false, ite_false]
      exact ih (fun o ho t ht => h o (List.mem_cons_of_mem _ ho) t ht)

/-- The loop invariant of `scrape_multiple_pages`: every sink call
recorded so far satisfies `ModeOk`, and a non-empty in-progress batch
implies a non-empty corpus (each batch element was also appended to
`all_projects`). -/
def InvState (startPage batchSize : Nat) (st : LoopState) : Prop :=
  (∀ e ∈ st.events, ModeOk startPage batchSize e)
  ∧ (st.currentBatch ≠ [] → st.allProjects ≠ [])

theorem stepPage_inv (sp bs : Nat) (pr : Nat → List ListingRecord × Stats)
    (st : LoopState) (n : Nat) (h : InvState sp bs st) :
    InvState sp bs (stepPage sp bs pr st n) := by
  unfold stepPage
  by_cases hpp : (pr n).1 = []
  · simpa [hpp, InvState] using h
  · simp only [hpp, if_false, ite_false]
    by_cases hb : bs ≤ (st.currentBatch ++ (pr n).1).length
    · simp only [hb, if_true, ite_true]
      constructor
      · intro e he
        rcases List.mem_append.1 he with hold | hnew
        · exact h.1 e hold
        · have he2 : e = Event.csvWrite (some n)
              (if n = sp ∧ (st.allProjects ++ (pr n).1).length ≤ bs then Mode.w else Mode.a)
              (st.currentBatch ++ (pr n).1) (st.allProjects ++ (pr n).1).length := by
            simpa using hnew
          subst he2
          by_cases hcond : n = sp ∧ (st.allProjects ++ (pr n).1).length ≤ bs
          · simp [ModeOk, hcond, hcond.1, hcond.2]
          · simp only [hcond, if_false, ite_false, ModeOk]
            constructor
            · intro hw
              exact absurd hw (by decide)
            · intro hc
              exact absurd ⟨Option.some.inj hc.1, hc.2⟩ hcond
      · intro hcb
        exact absurd rfl hcb
    · simp only [hb, if_false, ite_false]
      refine ⟨h.1, fun _ => ?_⟩
      simp [hpp]

theorem foldl_inv (sp bs : Nat) (pr : Nat → List ListingRecord × Stats) :
    ∀ (ps : List Nat) (st : LoopState), InvState sp bs st →
      InvState sp bs (ps.foldl (stepPage sp bs pr) st)
  | [], _, h => h
  | n :: ns, st, h => foldl_inv sp bs pr ns _ (stepPage_inv sp bs pr st n h)

theorem runLoop_inv (sp ep bs : Nat) (pr : Nat → List ListingRecord × Stats) :
    InvState sp bs (runLoop sp ep bs pr) :=
  foldl_inv sp bs pr _ _ ⟨fun e he => absurd he (List.not_mem_nil e), fun hc => absurd rfl hc⟩

/-- A blank record and a page function used by the concrete runs below:
page 1 yields two records, every other page yields none. -/
def recBlank : ListingRecord := ⟨"", "", "", "", "", "", "", ""⟩

def twoRecPage : Nat → List ListingRecord × Stats :=
  fun n => if n = 1 then ([recBlank, recBlank], ⟨0, 0⟩) else ([], ⟨0, 0⟩)

def recA : ListingRecord := ⟨"A", "Dev", "1Cr", "10", "link", "2", "2BHK", "R0"⟩

def projWithUrl : RawProject := ⟨"N", "D", "P", "U", "B", "T", "", "some/path"⟩

/-! ## Claim theorems -/

/-- C1 (counterexample): `write_to_csv` on an empty batch returns `False`,
not true, in write mode and in append mode alike (src/prop.py lines
116-117). -/
theorem write_to_csv_empty_claim_cex :
    ¬ ((write_to_csv [] Mode.w []).1 = true)
    ∧ ¬ ((write_to_csv [] Mode.a [["x"]]).1 = true) := by decide

/-- C1 (amended): for every empty batch, `write_to_csv` returns **false**
and performs no file operation, in either mode: the file is not opened
and its contents are unchanged. -/
theorem write_to_csv_empty_noop (mode : Mode) (existing : List (List String)) :
    write_to_csv [] mode existing = (false, existing, false) := rfl

/-- C2 (counterexample): a run over one page (the start page) that yields
two records with batch size 1 performs its very first flush of the run in
**append** mode, not write mode: `len(all_projects) <= batch_size` fails
at src/prop.py line 276. -/
theorem firstFlush_append_cex :
    firstCsvMode (scrape_multiple_pages 1 1 1 twoRecPage false 0).2.2 = some Mode.a
    ∧ ¬ (firstCsvMode (scrape_multiple_pages 1 1 1 twoRecPage false 0).2.2
          = some Mode.w) := by decide

/-- C2 (amended): in every run, a Persistence Sink call is made in write
mode **iff** it is an in-loop flush on the start page at a moment when
the accumulated corpus has at most `batch_size` records; every other
flush — later pages, an oversized first flush, and the finalization flush
of a remaining partial batch — opens in append mode. -/
theorem flush_mode_characterization (sp ep bs : Nat)
    (pr : Nat → List ListingRecord × Stats) (ce : Bool) (t : Nat) :
    ∀ e ∈ (scrape_multiple_pages sp ep bs pr ce t).2.2, ModeOk sp bs e := by
  intro e he
  have hinv := runLoop_inv sp ep bs pr
  unfold scrape_multiple_pages at he
  simp only [List.mem_append] at he
  rcases he with ((hinit | hloop) | hfin) | hjson
  · split at hinit
    · simp only [List.mem_singleton] at hinit
      subst hinit
      trivial
    · exact absurd hinit (List.not_mem_nil e)
  · exact hinv.1 e hloop
  · by_cases hcb : (runLoop sp ep bs pr).currentBatch = []
    · simp [hcb] at hfin
    · have hall : (runLoop sp ep bs pr).allProjects ≠ [] := hinv.2 hcb
      simp only [hcb, if_false, ite_false, List.mem_singleton] at hfin
      subst hfin
      simp only [ModeOk, hall, if_false, ite_false]
      constructor
      · intro hw
        exact absurd hw (by decide)
      · intro hc
        exact Option.noConfusion hc.1
  · simp only [List.mem_singleton] at hjson
    subst hjson
    trivial

/-- C2 (witness): in the two-record run with batch size 2, the in-loop
flush on the start page with corpus size 2 ≤ 2 is in the trace, and the
theorem yields its `ModeOk` characterisation. -/
theorem flush_mode_characterization_witness :
    Event.csvWrite (some 1) Mode.w [recBlank, recBlank] 2
        ∈ (scrape_multiple_pages 1 1 2 twoRecPage false 0).2.2
    ∧ ModeOk 1 2 (Event.csvWrite (some 1) Mode.w [recBlank, recBlank] 2) :=
  ⟨by decide,
    flush_mode_characterization 1 1 2 twoRecPage false 0
      (Event.csvWrite (some 1) Mode.w [recBlank, recBlank] 2) (by decide)⟩

/-- C3 (counterexample): the claim's description includes the trimmed
first segment of every comma-containing entry, but `getfloorPlan` also
drops entries whose trimmed first segment is empty (src/prop.py line
105): on `",a|b,c"` the code yields `"b"` while the claimed description
yields `", b"`. -/
theorem normalizeFloorPlans_claim_cex :
    getfloorPlan ",a|b,c" = "b"
    ∧ normalizeFloorPlansClaim ",a|b,c" = ", b"
    ∧ ¬ (getfloorPlan ",a|b,c" = normalizeFloorPlansClaim ",a|b,c") := by decide

/-- C3 (amended): for every pipe-delimited unit-info string,
`getfloorPlan` returns the lexicographically sorted, duplicate-free,
whitespace-trimmed first comma-segments of the comma-containing entries
**whose trimmed first segment is non-empty**, joined by `", "`; entries
without a comma, and entries whose trimmed first segment is empty, are
ignored; empty input yields `""`; the sorted label list is indeed sorted
and duplicate-free and holds exactly the described labels; the example
input yields `"2BHK, 3BHK"`.  The operation is a total function, so it
never raises. -/
theorem getfloorPlan_spec :
    (∀ s, getfloorPlan s = normalizeFloorPlansAmended s)
    ∧ (∀ s, List.Sorted LabelLe (sortedSet (planLabelsAmended s))
        ∧ (sortedSet (planLabelsAmended s)).Nodup
        ∧ ∀ v, v ∈ sortedSet (planLabelsAmended s) ↔ v ∈ planLabelsAmended s)
    ∧ getfloorPlan "2BHK,900sqft|3BHK,1200sqft|2BHK,950sqft" = "2BHK, 3BHK" := by
  refine ⟨getfloorPlan_eq_amended, fun s => ⟨?_, ?_, fun v => ?_⟩, by decide⟩
  · exact List.sorted_insertionSort LabelLe _
  · exact (List.perm_insertionSort LabelLe _).nodup_iff.mpr (List.nodup_dedup _)
  · exact (List.perm_insertionSort LabelLe _).mem_iff.trans (List.mem_dedup)

/-- C4: in the Page Harvester's per-record body, a record with a
non-empty detail path stores the Detail Fetcher result and is counted as
a registration success iff that result is non-empty and not one of the
four sentinel failure strings, else as a failure; a record with no detail
path is counted as a failure and its registration field is `"No PDP
URL"` (src/prop.py lines 201-218). -/
theorem processProject_classification (fetch : String → String) (p : RawProject) :
    (p.pdpUrl ≠ "" →
      (processProject fetch p).1.reraNumber = fetch p.pdpUrl
      ∧ ((processProject fetch p).2 = ⟨1, 0⟩ ↔
          (fetch p.pdpUrl ≠ "" ∧ fetch p.pdpUrl ∉ reraSentinels))
      ∧ ((processProject fetch p).2 = ⟨0, 1⟩ ↔
          ¬ (fetch p.pdpUrl ≠ "" ∧ fetch p.pdpUrl ∉ reraSentinels)))
    ∧ (p.pdpUrl = "" →
      (processProject fetch p).2 = ⟨0, 1⟩
      ∧ (processProject fetch p).1.reraNumber = "No PDP URL") := by
  constructor
  · intro hp
    have h1 : (processProject fetch p).1.reraNumber = fetch p.pdpUrl := by
      by_cases hs : reraSuccess (fetch p.pdpUrl) = true <;>
        simp [processProject, hp, hs]
    have h2 : (processProject fetch p).2 =
        (if reraSuccess (fetch p.pdpUrl) = true then (⟨1, 0⟩ : Stats) else ⟨0, 1⟩) := by
      by_cases hs : reraSuccess (fetch p.pdpUrl) = true <;>
        simp [processProject, hp, hs]
    refine ⟨h1, ?_, ?_⟩ <;> rw [h2]
    · by_cases hs : reraSuccess (fetch p.pdpUrl) = true
      · rw [if_pos hs]
        exact iff_of_true rfl ((reraSuccess_iff _).1 hs)
      · rw [if_neg hs]
        exact iff_of_false (by decide) (fun h => hs ((reraSuccess_iff _).2 h))
    · by_cases hs : reraSuccess (fetch p.pdpUrl) = true
      · rw [if_pos hs]
        exact iff_of_false (by decide) (fun hn => hn ((reraSuccess_iff _).1 hs))
      · rw [if_neg hs]
        exact iff_of_true rfl (fun h => hs ((reraSuccess_iff _).2 h))
  · intro hp
    constructor <;> simp [processProject, hp]

/-- C4 (witness): a concrete record with a non-empty detail path whose
fetch yields `"RERA123"` stores that value and is counted as a success. -/
theorem processProject_classification_witness :
    projWithUrl.pdpUrl ≠ ""
    ∧ (processProject (fun _ => "RERA123") projWithUrl).1.reraNumber = "RERA123"
    ∧ (processProject (fun _ => "RERA123") projWithUrl).2 = ⟨1, 0⟩ :=
  ⟨by decide,
    ((processProject_classification (fun _ => "RERA123") projWithUrl).1 (by decide)).1,
    ((processProject_classification (fun _ => "RERA123") projWithUrl).1
      (by decide)).2.1.mpr (by decide)⟩

/-- C5: for a non-empty detail path, `getRera` degrades every failure
mode to a sentinel: `"Timeout"` on request timeout, `"Network Error"` on
any other request failure, `"Error"` on any other exception, and `"Not
Available"` when the page is fetched but no selector strategy (nor the
free-text fallback) yields non-empty text (src/prop.py lines 81-91).  The
embedding is a total function: no exception propagates to the caller. -/
theorem getRera_sentinel_results (p : String) (sel : List (Option String))
    (fb : String) (hp : p ≠ "") :
    (getRera p ReraFetch.timeout).1 = "Timeout"
    ∧ (getRera p ReraFetch.requestError).1 = "Network Error"
    ∧ (getRera p ReraFetch.otherError).1 = "Error"
    ∧ ((∀ o ∈ sel, ∀ t, o = some t → t = "") → fb = "" →
        (getRera p (ReraFetch.ok sel fb)).1 = "Not Available") := by
  refine ⟨?_, ?_, ?_, ?_⟩
  · simp [getRera, hp]
  · simp [getRera, hp]
  · simp [getRera, hp]
  · intro hsel hfb
    have h1 : firstSelectorText sel = "" := firstSelectorText_eq_empty sel hsel
    simp [getRera, hp, h1, hfb]

/-- C5 (witness): at path `"x"`, a timeout yields `"Timeout"`, and a
fetched page where one selector matches nothing, one matches an element
with empty text, and the fallback finds nothing yields `"Not
Available"`. -/
theorem getRera_sentinel_results_witness :
    ("x" : String) ≠ ""
    ∧ (getRera "x" ReraFetch.timeout).1 = "Timeout"
    ∧ (getRera "x" (ReraFetch.ok [none, some ""] "")).1 = "Not Available" := by
  have h := getRera_sentinel_results "x" [none, some ""] "" (by decide)
  refine ⟨by decide, h.1, h.2.2.2 ?_ rfl⟩
  intro o ho t ht
  simp only [List.mem_cons, List.mem_singleton, List.not_mem_nil, or_false] at ho
  rcases ho with rfl | rfl
  · exact Option.noConfusion ht
  · exact (Option.some.inj ht).symm

/-- C6: for the empty detail path, `getRera` returns `""` immediately and
issues no network request (src/prop.py lines 41-42); the request count of
the embedding is `0` whatever the network would have done. -/
theorem getRera_empty_path (net : ReraFetch) : getRera "" net = ("", 0) := rfl

/-- C7: for every page, a request-level failure (network error, invalid
JSON, unexpected exception) or a body without the `projectsCards` key
makes `scrape_single_page` return an empty record list with zeroed
counters instead of raising (src/prop.py lines 230-240). -/
theorem scrape_single_page_failure_zeroed (fetch : String → String) :
    scrape_single_page fetch PageFetch.requestError = ([], ⟨0, 0⟩)
    ∧ scrape_single_page fetch PageFetch.jsonError = ([], ⟨0, 0⟩)
    ∧ scrape_single_page fetch PageFetch.otherError = ([], ⟨0, 0⟩)
    ∧ scrape_single_page fetch (PageFetch.ok none) = ([], ⟨0, 0⟩) :=
  ⟨rfl, rfl, rfl, rfl⟩

/-- C8: a run starting from page 1 with a pre-existing CSV file begins
its trace with the rename of that file to
`backup_<timestamp>_<csv filename>` (src/prop.py lines 256-259); the
rename is the trace's first operation and is not itself a tabular write,
so it precedes every write to the tabular output. -/
theorem scrape_backup_first (endPage batchSize : Nat)
    (pageResults : Nat → List ListingRecord × Stats) (t : Nat) :
    (scrape_multiple_pages 1 endPage batchSize pageResults true t).2.2.head?
      = some (Event.rename csv_filename (backupName t))
    ∧ ∀ page mode batch corpusLen,
        Event.rename csv_filename (backupName t)
          ≠ Event.csvWrite page mode batch corpusLen := by
  constructor
  · simp [scrape_multiple_pages]
  · intro page mode batch corpusLen h
    exact Event.noConfusion h

/-- C9: every record row `write_to_csv` emits lists the record's values
in exactly the order of the fixed 8-field header `fieldnames`, and a
header row is written exactly when the file is opened in write mode or
its existing content is empty (src/prop.py lines 119-131). -/
theorem write_to_csv_header_and_rows (projects : List ListingRecord) (mode : Mode)
    (existing : List (List String)) (h : projects ≠ []) :
    (write_to_csv projects mode existing).2.1 =
      (if mode = Mode.w then [] else existing)
      ++ (if mode = Mode.w ∨ existing = [] then [fieldnames] else [])
      ++ projects.map (fun r => fieldnames.map (fieldValue r)) := by
  have hrow : ∀ r : ListingRecord, recordRow r = fieldnames.map (fieldValue r) :=
    fun r => rfl
  unfold write_to_csv
  rw [if_neg h]
  cases mode with
  | w => simp [hrow]
  | a =>
    by_cases he : existing = []
    · simp [he, hrow]
    · simp [he, hrow]

/-- C9 (witness): appending one concrete record to a non-empty file adds
no header and one row in header order. -/
theorem write_to_csv_header_and_rows_witness :
    ([recA] : List ListingRecord) ≠ []
    ∧ (write_to_csv [recA] Mode.a [["old"]]).2.1 =
        (if Mode.a = Mode.w then [] else [["old"]])
        ++ (if Mode.a = Mode.w ∨ ([["old"]] : List (List String)) = [] then [fieldnames] else [])
        ++ [recA].map (fun r => fieldnames.map (fieldValue r)) :=
  ⟨by decide, write_to_csv_header_and_rows [recA] Mode.a [["old"]] (by decide)⟩

/-- C10: `getRera` returns `""` iff the detail path is empty: every
non-empty path yields a non-empty string (extracted text or one of the
non-empty sentinels), so the empty result uniquely identifies the
empty-path case (src/prop.py lines 41-42 and 81-91). -/
theorem getRera_empty_iff_empty_path (p : String) (net : ReraFetch) :
    (getRera p net).1 = "" ↔ p = "" := by
  by_cases hp : p = ""
  · subst hp
    simp [getRera]
  · simp only [hp, iff_false]
    unfold getRera
    rw [if_neg hp]
    cases net with
    | timeout => simp
    | requestError => simp
    | otherError => simp
    | ok sel fb =>
      simp only []
      by_cases h2 : (if firstSelectorText sel = "" then fb else firstSelectorText sel) = ""
      · simp [h2]
      · simp [h2]
